import Mathlib

/-!
Verification of the VOLK kernel sources: bit pack/unpack kernels, the exor
kernel, the puppet adapters, the kernel registry invariant, the selector
contract and the benchmark harness buffer accounting.

Buffers are modelled as functions `Nat → Nat` (byte at index); a kernel that
fills an output buffer is modelled as a function returning the list of bytes
it writes, in address order.  Machine integers are `Nat` with explicit
masking where the C code masks.
-/

namespace Volk

/-! ## volk_8u_pack8_8u.h -/

/-- `pack_byte` from `volk_8u_pack8_8u.h`: packs the LSBs of eight input
bytes into one byte, first input byte to the MSB.  The C code starts from
`0x00` and ORs in `((*inputPtr++) & 0x01) << s` for `s = 7, …, 0`. -/
def pack_byte (in_buf : Nat → Nat) : Nat :=
  ((((((((0 : Nat)
    ||| ((in_buf 0 &&& 0x01) <<< 7))
    ||| ((in_buf 1 &&& 0x01) <<< 6))
    ||| ((in_buf 2 &&& 0x01) <<< 5))
    ||| ((in_buf 3 &&& 0x01) <<< 4))
    ||| ((in_buf 4 &&& 0x01) <<< 3))
    ||| ((in_buf 5 &&& 0x01) <<< 2))
    ||| ((in_buf 6 &&& 0x01) <<< 1))
    ||| (in_buf 7 &&& 0x01)

/-- `volk_8u_pack8_8u_generic`: for `byte = 0, …, num_bytes - 1` the output
byte at `byte` is `pack_byte` of the eight input bytes starting at
`8 * byte` (the input pointer advances by 8 per iteration). -/
def volk_8u_pack8_8u_generic (in_buf : Nat → Nat) (num_bytes : Nat) : List Nat :=
  (List.range num_bytes).map (fun byte => pack_byte (fun k => in_buf (8 * byte + k)))

/-- Arithmetic value of `pack_byte`: the weighted sum of the LSBs. -/
theorem pack_byte_eq_sum (a : Nat → Nat) :
    pack_byte a =
      128 * (a 0 % 2) + 64 * (a 1 % 2) + 32 * (a 2 % 2) + 16 * (a 3 % 2) +
        8 * (a 4 % 2) + 4 * (a 5 % 2) + 2 * (a 6 % 2) + (a 7 % 2) := by
  unfold pack_byte
  simp only [Nat.and_one_is_mod]
  rcases Nat.mod_two_eq_zero_or_one (a 0) with h0 | h0 <;> rw [h0] <;>
  rcases Nat.mod_two_eq_zero_or_one (a 1) with h1 | h1 <;> rw [h1] <;>
  rcases Nat.mod_two_eq_zero_or_one (a 2) with h2 | h2 <;> rw [h2] <;>
  rcases Nat.mod_two_eq_zero_or_one (a 3) with h3 | h3 <;> rw [h3] <;>
  rcases Nat.mod_two_eq_zero_or_one (a 4) with h4 | h4 <;> rw [h4] <;>
  rcases Nat.mod_two_eq_zero_or_one (a 5) with h5 | h5 <;> rw [h5] <;>
  rcases Nat.mod_two_eq_zero_or_one (a 6) with h6 | h6 <;> rw [h6] <;>
  rcases Nat.mod_two_eq_zero_or_one (a 7) with h7 | h7 <;> rw [h7] <;>
  rfl

theorem volk_8u_pack8_8u_generic_getD (in_buf : Nat → Nat) (num_bytes i : Nat)
    (hi : i < num_bytes) :
    (volk_8u_pack8_8u_generic in_buf num_bytes).getD i 0 =
      pack_byte (fun k => in_buf (8 * i + k)) := by
  unfold volk_8u_pack8_8u_generic
  rw [List.getD_eq_getElem?_getD, List.getElem?_eq_getElem (by simpa using hi)]
  simp

/-! ## volk_8u_unpack8_8u.h -/

/-- `unpack_byte` from `volk_8u_unpack8_8u.h`: writes eight output bytes,
byte `k` holding bit `7 - k` of the input byte, shifted down to the LSB. -/
def unpack_byte (b : Nat) : List Nat :=
  [(b &&& 0x80) >>> 7, (b &&& 0x40) >>> 6, (b &&& 0x20) >>> 5, (b &&& 0x10) >>> 4,
   (b &&& 0x08) >>> 3, (b &&& 0x04) >>> 2, (b &&& 0x02) >>> 1, b &&& 0x01]

/-- `volk_8u_unpack8_8u_generic`: for `byte = 0, …, num_bytes - 1` the eight
output bytes starting at `8 * byte` are `unpack_byte` of input byte `byte`
(the output pointer advances by 8, the input pointer by 1). -/
def volk_8u_unpack8_8u_generic (in_buf : Nat → Nat) (num_bytes : Nat) : List Nat :=
  (List.range num_bytes).flatMap (fun byte => unpack_byte (in_buf byte))

/-- Extracting an isolated bit: masking with `2 ^ t` and shifting down. -/
theorem and_pow_shift (b t : Nat) : (b &&& 2 ^ t) >>> t = b / 2 ^ t % 2 := by
  rw [Nat.and_two_pow, Nat.shiftRight_eq_div_pow, Nat.testBit_to_div_mod]
  rcases Nat.mod_two_eq_zero_or_one (b / 2 ^ t) with h | h <;> rw [h] <;> simp

theorem unpack_byte_getD (b k : Nat) (hk : k < 8) :
    (unpack_byte b).getD k 0 = b / 2 ^ (7 - k) % 2 := by
  interval_cases k
  · show (b &&& 0x80) >>> 7 = b / 2 ^ (7 - 0) % 2
    have h := and_pow_shift b 7; norm_num at h ⊢; exact h
  · show (b &&& 0x40) >>> 6 = b / 2 ^ (7 - 1) % 2
    have h := and_pow_shift b 6; norm_num at h ⊢; exact h
  · show (b &&& 0x20) >>> 5 = b / 2 ^ (7 - 2) % 2
    have h := and_pow_shift b 5; norm_num at h ⊢; exact h
  · show (b &&& 0x10) >>> 4 = b / 2 ^ (7 - 3) % 2
    have h := and_pow_shift b 4; norm_num at h ⊢; exact h
  · show (b &&& 0x08) >>> 3 = b / 2 ^ (7 - 4) % 2
    have h := and_pow_shift b 3; norm_num at h ⊢; exact h
  · show (b &&& 0x04) >>> 2 = b / 2 ^ (7 - 5) % 2
    have h := and_pow_shift b 2; norm_num at h ⊢; exact h
  · show (b &&& 0x02) >>> 1 = b / 2 ^ (7 - 6) % 2
    have h := and_pow_shift b 1; norm_num at h ⊢; exact h
  · show b &&& 0x01 = b / 2 ^ (7 - 7) % 2
    norm_num

theorem volk_8u_unpack8_8u_generic_length (in_buf : Nat → Nat) (n : Nat) :
    (volk_8u_unpack8_8u_generic in_buf n).length = 8 * n := by
  induction n with
  | zero => rfl
  | succ m ih =>
      unfold volk_8u_unpack8_8u_generic at ih ⊢
      rw [List.range_succ, List.flatMap_append, List.length_append, ih]
      simp [unpack_byte]
      omega

theorem volk_8u_unpack8_8u_generic_getD (in_buf : Nat → Nat) (n i k : Nat)
    (hi : i < n) (hk : k < 8) :
    (volk_8u_unpack8_8u_generic in_buf n).getD (8 * i + k) 0 =
      (unpack_byte (in_buf i)).getD k 0 := by
  induction n with
  | zero => omega
  | succ m ih =>
      unfold volk_8u_unpack8_8u_generic at ih ⊢
      rw [List.range_succ, List.flatMap_append]
      rcases Nat.lt_or_ge i m with h | h
      · rw [List.getD_append]
        · exact ih h
        · rw [show ((List.range m).flatMap fun byte => unpack_byte (in_buf byte)) =
                volk_8u_unpack8_8u_generic in_buf m from rfl,
              volk_8u_unpack8_8u_generic_length]
          omega
      · have him : i = m := by omega
        subst him
        rw [List.getD_append_right]
        · rw [show ((List.range i).flatMap fun byte => unpack_byte (in_buf byte)) =
                volk_8u_unpack8_8u_generic in_buf i from rfl,
              volk_8u_unpack8_8u_generic_length]
          simp [Nat.add_sub_cancel_left]
        · rw [show ((List.range i).flatMap fun byte => unpack_byte (in_buf byte)) =
                volk_8u_unpack8_8u_generic in_buf i from rfl,
              volk_8u_unpack8_8u_generic_length]
          omega

/-! ## volk_8u_pack8puppet_8u.h -/

/-- `volk_8u_pack8puppet_8u_generic`: the puppet adapter forwards to
`volk_8u_pack8_8u_generic` with `num_bytes / 8` packed bytes. -/
def volk_8u_pack8puppet_8u_generic (in_buf : Nat → Nat) (num_bytes : Nat) : List Nat :=
  volk_8u_pack8_8u_generic in_buf (num_bytes / 8)

/-- C2: the pack puppet adapter behaves exactly like the real kernel at
`num_bytes / 8`: it forwards verbatim, writes `num_bytes / 8` output bytes,
and only reads the first `8 * (num_bytes / 8)` input bytes. -/
theorem volk_8u_pack8puppet_8u_generic_spec (in1 in2 : Nat → Nat) (num_bytes : Nat)
    (h : ∀ j, j < 8 * (num_bytes / 8) → in1 j = in2 j) :
    volk_8u_pack8puppet_8u_generic in1 num_bytes
        = volk_8u_pack8_8u_generic in1 (num_bytes / 8)
      ∧ (volk_8u_pack8puppet_8u_generic in1 num_bytes).length = num_bytes / 8
      ∧ volk_8u_pack8puppet_8u_generic in1 num_bytes
        = volk_8u_pack8puppet_8u_generic in2 num_bytes := by
  refine ⟨rfl, ?_, ?_⟩
  · unfold volk_8u_pack8puppet_8u_generic volk_8u_pack8_8u_generic
    simp
  · unfold volk_8u_pack8puppet_8u_generic volk_8u_pack8_8u_generic
    apply List.map_congr_left
    intro i hi
    rw [List.mem_range] at hi
    simp only [pack_byte_eq_sum]
    rw [h (8 * i + 0) (by omega), h (8 * i + 1) (by omega), h (8 * i + 2) (by omega),
        h (8 * i + 3) (by omega), h (8 * i + 4) (by omega), h (8 * i + 5) (by omega),
        h (8 * i + 6) (by omega), h (8 * i + 7) (by omega)]

/-- Witness for C2 at the harness-controlled length 64: the adapter writes
exactly 8 = 64/8 output bytes. -/
theorem volk_8u_pack8puppet_8u_generic_spec_witness :
    (∀ j, j < 8 * (64 / 8) → j % 2 = (if j < 64 then j % 2 else 99)) ∧
      ((volk_8u_pack8puppet_8u_generic (fun j => j % 2) 64
          = volk_8u_pack8_8u_generic (fun j => j % 2) (64 / 8))
        ∧ (volk_8u_pack8puppet_8u_generic (fun j => j % 2) 64).length = 64 / 8
        ∧ volk_8u_pack8puppet_8u_generic (fun j => j % 2) 64
          = volk_8u_pack8puppet_8u_generic (fun j => if j < 64 then j % 2 else 99) 64) :=
  ⟨by decide,
    volk_8u_pack8puppet_8u_generic_spec (fun j => j % 2)
      (fun j => if j < 64 then j % 2 else 99) 64 (by decide)⟩

/-- C10: bit order of the generic pack kernel.  For `i < num_bytes` and
`k ≤ 7`, bit `7 - k` of output byte `i` is the LSB of input byte `8*i + k`:
the first input byte of each group of eight lands in the MSB. -/
theorem volk_8u_pack8_8u_generic_bit_order (in_buf : Nat → Nat) (num_bytes i k : Nat)
    (hi : i < num_bytes) (hk : k ≤ 7) :
    (((volk_8u_pack8_8u_generic in_buf num_bytes).getD i 0) >>> (7 - k)) &&& 1 =
      in_buf (8 * i + k) &&& 1 := by
  rw [volk_8u_pack8_8u_generic_getD in_buf num_bytes i hi, pack_byte_eq_sum]
  simp only [Nat.and_one_is_mod, Nat.shiftRight_eq_div_pow]
  interval_cases k <;> norm_num <;> omega

/-- Witness for C10 at a concrete buffer, `i = 1`, `k = 3`. -/
theorem volk_8u_pack8_8u_generic_bit_order_witness :
    1 < 2 ∧ 3 ≤ 7 ∧
      (((volk_8u_pack8_8u_generic (fun j => j) 2).getD 1 0) >>> (7 - 3)) &&& 1 =
        (fun j : Nat => j) (8 * 1 + 3) &&& 1 :=
  ⟨by decide, by decide,
    volk_8u_pack8_8u_generic_bit_order (fun j => j) 2 1 3 (by decide) (by decide)⟩

/-- Packing the eight bits produced by `unpack_byte` restores the byte. -/
theorem pack_unpack_byte (b : Nat) (hb : b < 256) :
    pack_byte (fun k => (unpack_byte b).getD k 0) = b := by
  rw [pack_byte_eq_sum]
  rw [unpack_byte_getD b 0 (by omega), unpack_byte_getD b 1 (by omega),
      unpack_byte_getD b 2 (by omega), unpack_byte_getD b 3 (by omega),
      unpack_byte_getD b 4 (by omega), unpack_byte_getD b 5 (by omega),
      unpack_byte_getD b 6 (by omega), unpack_byte_getD b 7 (by omega)]
  norm_num
  omega

/-- C9: pack after unpack is the identity.  Unpacking `n` bytes of `x` into
`8 * n` bit-bytes and packing them back yields the first `n` bytes of `x`. -/
theorem pack8_after_unpack8_roundtrip (x : Nat → Nat) (n : Nat)
    (hx : ∀ j, x j < 256) :
    volk_8u_pack8_8u_generic
        (fun j => (volk_8u_unpack8_8u_generic x n).getD j 0) n =
      (List.range n).map x := by
  unfold volk_8u_pack8_8u_generic
  apply List.map_congr_left
  intro i hi
  rw [List.mem_range] at hi
  have g0 := volk_8u_unpack8_8u_generic_getD x n i 0 hi (by omega)
  have g1 := volk_8u_unpack8_8u_generic_getD x n i 1 hi (by omega)
  have g2 := volk_8u_unpack8_8u_generic_getD x n i 2 hi (by omega)
  have g3 := volk_8u_unpack8_8u_generic_getD x n i 3 hi (by omega)
  have g4 := volk_8u_unpack8_8u_generic_getD x n i 4 hi (by omega)
  have g5 := volk_8u_unpack8_8u_generic_getD x n i 5 hi (by omega)
  have g6 := volk_8u_unpack8_8u_generic_getD x n i 6 hi (by omega)
  have g7 := volk_8u_unpack8_8u_generic_getD x n i 7 hi (by omega)
  calc pack_byte (fun k => (volk_8u_unpack8_8u_generic x n).getD (8 * i + k) 0)
      = pack_byte (fun k => (unpack_byte (x i)).getD k 0) := by
        rw [pack_byte_eq_sum, pack_byte_eq_sum]
        rw [g0, g1, g2, g3, g4, g5, g6, g7]
    _ = x i := pack_unpack_byte (x i) (hx i)

/-- Witness for C9 at a concrete two-byte buffer. -/
theorem pack8_after_unpack8_roundtrip_witness :
    (∀ j : Nat, (j + 3) % 256 < 256) ∧
      volk_8u_pack8_8u_generic
          (fun j =>
            (volk_8u_unpack8_8u_generic (fun j => (j + 3) % 256) 2).getD j 0) 2 =
        (List.range 2).map (fun j => (j + 3) % 256) :=
  ⟨fun _ => Nat.mod_lt _ (by norm_num),
    pack8_after_unpack8_roundtrip (fun j => (j + 3) % 256) 2
      (fun _ => Nat.mod_lt _ (by norm_num))⟩

/-! ## SSE byte-vector intrinsics

128-bit SSE vectors are modelled as byte-lane functions `Nat → Nat`
(lane `j` for `j < 16`).  The models follow the Intel semantics of each
intrinsic at byte granularity. -/

/-- `_mm_shuffle_epi8 v tbl`: lane `j` is lane `tbl j` of `v` (all control
bytes used here are `< 16` with the high bit clear). -/
def mm_shuffle_epi8 (v tbl : Nat → Nat) : Nat → Nat := fun j => v (tbl j)

/-- `_mm_and_si128`: lane-wise bitwise and. -/
def mm_and_si128 (a b : Nat → Nat) : Nat → Nat := fun j => a j &&& b j

/-- `_mm_cmpeq_epi8`: lane-wise compare, `0xFF` on equality, `0x00` else. -/
def mm_cmpeq_epi8 (a b : Nat → Nat) : Nat → Nat :=
  fun j => if a j = b j then 0xFF else 0x00

/-- `_mm_set1_epi8`: broadcast one byte to all lanes. -/
def mm_set1_epi8 (c : Nat) : Nat → Nat := fun _ => c

/-- `_mm_loadu_si128` at byte offset `off` of a byte buffer. -/
def mm_loadu_si128 (mem : Nat → Nat) (off : Nat) : Nat → Nat := fun j => mem (off + j)

/-- Most significant bit of a byte lane. -/
def msb8 (b : Nat) : Nat := (b >>> 7) &&& 1

/-- `_mm_movemask_epi8`: bit `j` of the result is the MSB of lane `j`. -/
def mm_movemask_epi8 (v : Nat → Nat) : Nat :=
  msb8 (v 0) + 2 * msb8 (v 1) + 4 * msb8 (v 2) + 8 * msb8 (v 3) +
    16 * msb8 (v 4) + 32 * msb8 (v 5) + 64 * msb8 (v 6) + 128 * msb8 (v 7) +
    256 * msb8 (v 8) + 512 * msb8 (v 9) + 1024 * msb8 (v 10) + 2048 * msb8 (v 11) +
    4096 * msb8 (v 12) + 8192 * msb8 (v 13) + 16384 * msb8 (v 14) + 32768 * msb8 (v 15)

/-- Byte lane `j` of the shuffle control
`_mm_set_epi8(8, 9, 10, 11, 12, 13, 14, 15, 0, 1, 2, 3, 4, 5, 6, 7)` used by
`volk_8u_pack8_8u_u_ssse3`: `_mm_set_epi8` lists arguments from the highest
lane down, so lane `j` holds `7 - j` for `j < 8` and `23 - j` otherwise. -/
def pack_reverse_mask (j : Nat) : Nat := if j < 8 then 7 - j else 23 - j

/-- Clearing the low bit of an `unsigned int`: `num_bytes & 0xFFFFFFFE`. -/
theorem and_mask_even (n : Nat) (h : n < 4294967296) :
    n &&& 0xFFFFFFFE = 2 * (n / 2) := by
  have hmask : (0xFFFFFFFE : Nat) = 2 * (2 ^ 31 - 1) := by norm_num
  apply Nat.eq_of_testBit_eq
  intro i
  rw [Nat.testBit_and, hmask]
  cases i with
  | zero => simp [Nat.testBit_zero, Nat.mul_mod_right]
  | succ j =>
      have h1 : Nat.testBit (2 * (2 ^ 31 - 1)) (j + 1) = decide (j < 31) := by
        rw [Nat.testBit_succ, Nat.mul_div_cancel_left _ (by norm_num : 0 < 2),
          Nat.testBit_two_pow_sub_one]
      have h2 : Nat.testBit (2 * (n / 2)) (j + 1) = Nat.testBit (n / 2) j := by
        rw [Nat.testBit_succ, Nat.mul_div_cancel_left _ (by norm_num : 0 < 2)]
      rw [h1, h2, Nat.testBit_div_two]
      by_cases hj : j < 31
      · simp [hj]
      · have hlt : n < 2 ^ (j + 1) := by
          have h32 : (4294967296 : Nat) = 2 ^ 32 := by norm_num
          have hpow : 2 ^ 32 ≤ 2 ^ (j + 1) :=
            Nat.pow_le_pow_right (by norm_num) (by omega)
          omega
        simp [hj, Nat.testBit_lt_two_pow hlt]

theorem msb8_cmpeq_one (x : Nat) :
    msb8 (if x &&& 1 = 1 then 0xFF else 0x00) = x % 2 := by
  rw [Nat.and_one_is_mod]
  rcases Nat.mod_two_eq_zero_or_one x with h | h <;> rw [h] <;> decide

/-- Masking all lanes with `0x01` and comparing against `0x01` puts each
lane's LSB into the corresponding movemask bit. -/
theorem movemask_cmpeq_lsb (w : Nat → Nat) :
    mm_movemask_epi8
        (mm_cmpeq_epi8 (mm_and_si128 w (mm_set1_epi8 0x01)) (mm_set1_epi8 0x01)) =
      w 0 % 2 + 2 * (w 1 % 2) + 4 * (w 2 % 2) + 8 * (w 3 % 2) +
        16 * (w 4 % 2) + 32 * (w 5 % 2) + 64 * (w 6 % 2) + 128 * (w 7 % 2) +
        256 * (w 8 % 2) + 512 * (w 9 % 2) + 1024 * (w 10 % 2) + 2048 * (w 11 % 2) +
        4096 * (w 12 % 2) + 8192 * (w 13 % 2) + 16384 * (w 14 % 2) +
        32768 * (w 15 % 2) := by
  simp only [mm_movemask_epi8, mm_cmpeq_epi8, mm_and_si128, mm_set1_epi8]
  rw [msb8_cmpeq_one (w 0), msb8_cmpeq_one (w 1), msb8_cmpeq_one (w 2),
    msb8_cmpeq_one (w 3), msb8_cmpeq_one (w 4), msb8_cmpeq_one (w 5),
    msb8_cmpeq_one (w 6), msb8_cmpeq_one (w 7), msb8_cmpeq_one (w 8),
    msb8_cmpeq_one (w 9), msb8_cmpeq_one (w 10), msb8_cmpeq_one (w 11),
    msb8_cmpeq_one (w 12), msb8_cmpeq_one (w 13), msb8_cmpeq_one (w 14),
    msb8_cmpeq_one (w 15)]

theorem pack_byte_congr (f g : Nat → Nat) (h : ∀ k, k < 8 → f k = g k) :
    pack_byte f = pack_byte g := by
  unfold pack_byte
  rw [h 0 (by omega), h 1 (by omega), h 2 (by omega), h 3 (by omega),
    h 4 (by omega), h 5 (by omega), h 6 (by omega), h 7 (by omega)]

/-- One iteration of the SSSE3 vector loop of `volk_8u_pack8_8u_u_ssse3`
with the input pointer at byte offset `8 * byte`: load 16 bytes, shuffle
with the reverse mask, mask with `0x01`, compare with the bit mask, and take
the byte movemask (stored as a little-endian `uint16_t`). -/
def pack8_ssse3_step (in_buf : Nat → Nat) (byte : Nat) : Nat :=
  mm_movemask_epi8
    (mm_cmpeq_epi8
      (mm_and_si128
        (mm_shuffle_epi8 (mm_loadu_si128 in_buf (8 * byte)) pack_reverse_mask)
        (mm_set1_epi8 0x01))
      (mm_set1_epi8 0x01))

/-- The vector loop `for(; byte < fast_num_bytes; byte += 2)` of
`volk_8u_pack8_8u_u_ssse3`: two output bytes (low, then high byte of the
`uint16_t` movemask store) per iteration. -/
def pack8_ssse3_vec (in_buf : Nat → Nat) (fast_num_bytes byte : Nat) : List Nat :=
  if byte < fast_num_bytes then
    pack8_ssse3_step in_buf byte % 256 :: pack8_ssse3_step in_buf byte / 256 ::
      pack8_ssse3_vec in_buf fast_num_bytes (byte + 2)
  else []
termination_by fast_num_bytes - byte
decreasing_by omega

/-- `volk_8u_pack8_8u_u_ssse3`: vector loop up to
`fast_num_bytes = num_bytes & 0xFFFFFFFE`, then the scalar `pack_byte` tail. -/
def volk_8u_pack8_8u_u_ssse3 (in_buf : Nat → Nat) (num_bytes : Nat) : List Nat :=
  pack8_ssse3_vec in_buf (num_bytes &&& 0xFFFFFFFE) 0 ++
    (List.range' (num_bytes &&& 0xFFFFFFFE) (num_bytes - (num_bytes &&& 0xFFFFFFFE))).map
      (fun byte => pack_byte (fun k => in_buf (8 * byte + k)))

/-- The two bytes stored by one SSSE3 vector iteration are the two
`pack_byte` results of the generic kernel. -/
theorem pack8_ssse3_step_spec (in_buf : Nat → Nat) (byte : Nat) :
    pack8_ssse3_step in_buf byte % 256 = pack_byte (fun k => in_buf (8 * byte + k)) ∧
      pack8_ssse3_step in_buf byte / 256 =
        pack_byte (fun k => in_buf (8 * byte + (8 + k))) := by
  have hm := movemask_cmpeq_lsb
    (mm_shuffle_epi8 (mm_loadu_si128 in_buf (8 * byte)) pack_reverse_mask)
  simp only [mm_shuffle_epi8, mm_loadu_si128, pack_reverse_mask] at hm
  norm_num at hm
  unfold pack8_ssse3_step
  constructor
  · rw [hm, pack_byte_eq_sum]
    norm_num
    omega
  · rw [hm, pack_byte_eq_sum]
    norm_num
    omega

theorem pack8_ssse3_vec_spec (in_buf : Nat → Nat) (fast : Nat) :
    ∀ fuel byte, fast - byte ≤ fuel → byte % 2 = fast % 2 →
      pack8_ssse3_vec in_buf fast byte =
        (List.range' byte (fast - byte)).map
          (fun i => pack_byte (fun k => in_buf (8 * i + k))) := by
  intro fuel
  induction fuel with
  | zero =>
      intro byte hle _
      rw [pack8_ssse3_vec, if_neg (by omega), show fast - byte = 0 by omega]
      rfl
  | succ n ih =>
      intro byte hle hpar
      rw [pack8_ssse3_vec]
      by_cases hlt : byte < fast
      · rw [if_pos hlt]
        have h2 : 2 ≤ fast - byte := by omega
        rw [show fast - byte = ((fast - (byte + 2)) + 1) + 1 by omega,
          List.range'_succ, List.range'_succ]
        simp only [List.map_cons]
        have hs := pack8_ssse3_step_spec in_buf byte
        rw [hs.1, hs.2,
          pack_byte_congr (fun k => in_buf (8 * byte + (8 + k)))
            (fun k => in_buf (8 * (byte + 1) + k))
            (fun k _ => congrArg in_buf (by omega)),
          show byte + 1 + 1 = byte + 2 by omega,
          ih (byte + 2) (by omega) (by omega)]
      · rw [if_neg hlt, show fast - byte = 0 by omega]
        rfl

/-- C3: for `num_bytes` in `unsigned int` range, the SSSE3 bit-pack variant
writes exactly the same bytes as the generic reference implementation. -/
theorem volk_8u_pack8_8u_u_ssse3_eq_generic (in_buf : Nat → Nat) (num_bytes : Nat)
    (h : num_bytes < 4294967296) :
    volk_8u_pack8_8u_u_ssse3 in_buf num_bytes =
      volk_8u_pack8_8u_generic in_buf num_bytes := by
  unfold volk_8u_pack8_8u_u_ssse3 volk_8u_pack8_8u_generic
  rw [and_mask_even num_bytes h,
    pack8_ssse3_vec_spec in_buf (2 * (num_bytes / 2)) (2 * (num_bytes / 2)) 0
      (by omega) (by omega),
    Nat.sub_zero, ← List.map_append,
    show List.range' (2 * (num_bytes / 2)) (num_bytes - 2 * (num_bytes / 2)) =
      List.range' (0 + 2 * (num_bytes / 2)) (num_bytes - 2 * (num_bytes / 2)) by
        norm_num,
    List.range'_append_1,
    show num_bytes - 2 * (num_bytes / 2) + 2 * (num_bytes / 2) = num_bytes by omega,
    ← List.range_eq_range']

/-- Witness for C3 at a concrete buffer and an odd length (vector loop plus
scalar tail). -/
theorem volk_8u_pack8_8u_u_ssse3_eq_generic_witness :
    3 < 4294967296 ∧
      volk_8u_pack8_8u_u_ssse3 (fun j => j % 3) 3 =
        volk_8u_pack8_8u_generic (fun j => j % 3) 3 :=
  ⟨by norm_num, volk_8u_pack8_8u_u_ssse3_eq_generic (fun j => j % 3) 3 (by norm_num)⟩

/-! ## volk_8u_unpack8_8u_u_ssse3 -/

/-- `_mm_set1_epi16` of the 16-bit value `s`, viewed as byte lanes
(little endian): even lanes hold the low byte, odd lanes the high byte. -/
def mm_set1_epi16_bytes (s : Nat) : Nat → Nat :=
  fun j => if j % 2 = 0 then s % 256 else s / 256 % 256

/-- Byte lane `j` of the shuffle control
`_mm_set_epi8(1, 3, 5, 7, 9, 11, 13, 15, 0, 2, 4, 6, 8, 10, 12, 14)` used by
`volk_8u_unpack8_8u_u_ssse3`: lane `j` holds `14 - 2*j` for `j < 8`
(even indices, the low input byte) and `31 - 2*j` otherwise (odd indices,
the high input byte). -/
def unpack_reverse_mask (j : Nat) : Nat := if j < 8 then 14 - 2 * j else 31 - 2 * j

/-- Byte lane `j` of
`_mm_set_epi8(0x01, 0x02, 0x04, 0x08, 0x10, 0x20, 0x40, 0x80,
0x01, 0x02, 0x04, 0x08, 0x10, 0x20, 0x40, 0x80)`: each half descends from
`0x80` in lane 0 (resp. 8) to `0x01` in lane 7 (resp. 15). -/
def unpack_bit_mask (j : Nat) : Nat :=
  if j % 8 = 0 then 0x80 else if j % 8 = 1 then 0x40 else if j % 8 = 2 then 0x20
  else if j % 8 = 3 then 0x10 else if j % 8 = 4 then 0x08 else if j % 8 = 5 then 0x04
  else if j % 8 = 6 then 0x02 else 0x01

/-- One iteration of the SSSE3 vector loop of `volk_8u_unpack8_8u_u_ssse3`
with the input pointer at byte offset `byte`: broadcast the 16-bit load,
shuffle, mask with the bit mask, compare, and keep one bit per lane. -/
def unpack8_ssse3_step (in_buf : Nat → Nat) (byte : Nat) : Nat → Nat :=
  mm_and_si128
    (mm_cmpeq_epi8
      (mm_and_si128
        (mm_shuffle_epi8
          (mm_set1_epi16_bytes (in_buf byte + 256 * in_buf (byte + 1)))
          unpack_reverse_mask)
        unpack_bit_mask)
      unpack_bit_mask)
    (mm_set1_epi8 1)

/-- The vector loop `for(byte = 0; byte < fast_num_bytes; byte += 2)` of
`volk_8u_unpack8_8u_u_ssse3`: 16 output bytes per iteration. -/
def unpack8_ssse3_vec (in_buf : Nat → Nat) (fast_num_bytes byte : Nat) : List Nat :=
  if byte < fast_num_bytes then
    (List.range 16).map (unpack8_ssse3_step in_buf byte) ++
      unpack8_ssse3_vec in_buf fast_num_bytes (byte + 2)
  else []
termination_by fast_num_bytes - byte
decreasing_by omega

/-- `volk_8u_unpack8_8u_u_ssse3`: vector loop up to
`fast_num_bytes = num_bytes & 0xFFFFFFFE`, then the scalar `unpack_byte`
tail. -/
def volk_8u_unpack8_8u_u_ssse3 (in_buf : Nat → Nat) (num_bytes : Nat) : List Nat :=
  unpack8_ssse3_vec in_buf (num_bytes &&& 0xFFFFFFFE) 0 ++
    (List.range' (num_bytes &&& 0xFFFFFFFE)
        (num_bytes - (num_bytes &&& 0xFFFFFFFE))).flatMap
      (fun byte => unpack_byte (in_buf byte))

/-- A compare-against-a-power-of-two lane, reduced to a single bit. -/
theorem lane_master (y t m : Nat) (hm : m = 2 ^ t) :
    ((if y &&& m = m then (0xFF : Nat) else 0x00) &&& 1) = y / m % 2 := by
  subst hm
  rcases Nat.mod_two_eq_zero_or_one (y / 2 ^ t) with hv | hv
  · have hb : y.testBit t = false := by simp [Nat.testBit_to_div_mod, hv]
    rw [Nat.and_two_pow, hb, hv]
    have h0 : (0 : Nat) ≠ 2 ^ t := (Nat.two_pow_pos t).ne
    simp [h0]
  · have hb : y.testBit t = true := by simp [Nat.testBit_to_div_mod, hv]
    rw [Nat.and_two_pow, hb, hv]
    simp

/-- `unpack_byte` written with divisions instead of masks and shifts. -/
theorem unpack_byte_div_form (b : Nat) :
    unpack_byte b = [b / 128 % 2, b / 64 % 2, b / 32 % 2, b / 16 % 2,
      b / 8 % 2, b / 4 % 2, b / 2 % 2, b % 2] := by
  unfold unpack_byte
  have e7 := and_pow_shift b 7; norm_num at e7
  have e6 := and_pow_shift b 6; norm_num at e6
  have e5 := and_pow_shift b 5; norm_num at e5
  have e4 := and_pow_shift b 4; norm_num at e4
  have e3 := and_pow_shift b 3; norm_num at e3
  have e2 := and_pow_shift b 2; norm_num at e2
  have e1 := and_pow_shift b 1; norm_num at e1
  rw [e7, e6, e5, e4, e3, e2, e1, Nat.and_one_is_mod]

/-- The 16 bytes stored by one SSSE3 vector iteration are the two
`unpack_byte` groups of the generic kernel. -/
theorem unpack8_ssse3_step_spec (in_buf : Nat → Nat) (byte : Nat)
    (h0 : in_buf byte < 256) (h1 : in_buf (byte + 1) < 256) :
    (List.range 16).map (unpack8_ssse3_step in_buf byte) =
      unpack_byte (in_buf byte) ++ unpack_byte (in_buf (byte + 1)) := by
  have hs0 : (in_buf byte + 256 * in_buf (byte + 1)) % 256 = in_buf byte := by omega
  have hs1 : (in_buf byte + 256 * in_buf (byte + 1)) / 256 % 256 =
      in_buf (byte + 1) := by omega
  have l0 : unpack8_ssse3_step in_buf byte 0 = in_buf byte / 128 % 2 := by
    show ((if (in_buf byte + 256 * in_buf (byte + 1)) % 256 &&& 0x80 = 0x80
        then (0xFF : Nat) else 0x00) &&& 1) = _
    rw [hs0]; exact lane_master _ 7 0x80 (by norm_num)
  have l1 : unpack8_ssse3_step in_buf byte 1 = in_buf byte / 64 % 2 := by
    show ((if (in_buf byte + 256 * in_buf (byte + 1)) % 256 &&& 0x40 = 0x40
        then (0xFF : Nat) else 0x00) &&& 1) = _
    rw [hs0]; exact lane_master _ 6 0x40 (by norm_num)
  have l2 : unpack8_ssse3_step in_buf byte 2 = in_buf byte / 32 % 2 := by
    show ((if (in_buf byte + 256 * in_buf (byte + 1)) % 256 &&& 0x20 = 0x20
        then (0xFF : Nat) else 0x00) &&& 1) = _
    rw [hs0]; exact lane_master _ 5 0x20 (by norm_num)
  have l3 : unpack8_ssse3_step in_buf byte 3 = in_buf byte / 16 % 2 := by
    show ((if (in_buf byte + 256 * in_buf (byte + 1)) % 256 &&& 0x10 = 0x10
        then (0xFF : Nat) else 0x00) &&& 1) = _
    rw [hs0]; exact lane_master _ 4 0x10 (by norm_num)
  have l4 : unpack8_ssse3_step in_buf byte 4 = in_buf byte / 8 % 2 := by
    show ((if (in_buf byte + 256 * in_buf (byte + 1)) % 256 &&& 0x08 = 0x08
        then (0xFF : Nat) else 0x00) &&& 1) = _
    rw [hs0]; exact lane_master _ 3 0x08 (by norm_num)
  have l5 : unpack8_ssse3_step in_buf byte 5 = in_buf byte / 4 % 2 := by
    show ((if (in_buf byte + 256 * in_buf (byte + 1)) % 256 &&& 0x04 = 0x04
        then (0xFF : Nat) else 0x00) &&& 1) = _
    rw [hs0]; exact lane_master _ 2 0x04 (by norm_num)
  have l6 : unpack8_ssse3_step in_buf byte 6 = in_buf byte / 2 % 2 := by
    show ((if (in_buf byte + 256 * in_buf (byte + 1)) % 256 &&& 0x02 = 0x02
        then (0xFF : Nat) else 0x00) &&& 1) = _
    rw [hs0]; exact lane_master _ 1 0x02 (by norm_num)
  have l7 : unpack8_ssse3_step in_buf byte 7 = in_buf byte % 2 := by
    show ((if (in_buf byte + 256 * in_buf (byte + 1)) % 256 &&& 0x01 = 0x01
        then (0xFF : Nat) else 0x00) &&& 1) = _
    rw [hs0]
    have hl := lane_master (in_buf byte) 0 0x01 (by norm_num)
    simp only [Nat.div_one] at hl
    exact hl
  have l8 : unpack8_ssse3_step in_buf byte 8 = in_buf (byte + 1) / 128 % 2 := by
    show ((if (in_buf byte + 256 * in_buf (byte + 1)) / 256 % 256 &&& 0x80 = 0x80
        then (0xFF : Nat) else 0x00) &&& 1) = _
    rw [hs1]; exact lane_master _ 7 0x80 (by norm_num)
  have l9 : unpack8_ssse3_step in_buf byte 9 = in_buf (byte + 1) / 64 % 2 := by
    show ((if (in_buf byte + 256 * in_buf (byte + 1)) / 256 % 256 &&& 0x40 = 0x40
        then (0xFF : Nat) else 0x00) &&& 1) = _
    rw [hs1]; exact lane_master _ 6 0x40 (by norm_num)
  have l10 : unpack8_ssse3_step in_buf byte 10 = in_buf (byte + 1) / 32 % 2 := by
    show ((if (in_buf byte + 256 * in_buf (byte + 1)) / 256 % 256 &&& 0x20 = 0x20
        then (0xFF : Nat) else 0x00) &&& 1) = _
    rw [hs1]; exact lane_master _ 5 0x20 (by norm_num)
  have l11 : unpack8_ssse3_step in_buf byte 11 = in_buf (byte + 1) / 16 % 2 := by
    show ((if (in_buf byte + 256 * in_buf (byte + 1)) / 256 % 256 &&& 0x10 = 0x10
        then (0xFF : Nat) else 0x00) &&& 1) = _
    rw [hs1]; exact lane_master _ 4 0x10 (by norm_num)
  have l12 : unpack8_ssse3_step in_buf byte 12 = in_buf (byte + 1) / 8 % 2 := by
    show ((if (in_buf byte + 256 * in_buf (byte + 1)) / 256 % 256 &&& 0x08 = 0x08
        then (0xFF : Nat) else 0x00) &&& 1) = _
    rw [hs1]; exact lane_master _ 3 0x08 (by norm_num)
  have l13 : unpack8_ssse3_step in_buf byte 13 = in_buf (byte + 1) / 4 % 2 := by
    show ((if (in_buf byte + 256 * in_buf (byte + 1)) / 256 % 256 &&& 0x04 = 0x04
        then (0xFF : Nat) else 0x00) &&& 1) = _
    rw [hs1]; exact lane_master _ 2 0x04 (by norm_num)
  have l14 : unpack8_ssse3_step in_buf byte 14 = in_buf (byte + 1) / 2 % 2 := by
    show ((if (in_buf byte + 256 * in_buf (byte + 1)) / 256 % 256 &&& 0x02 = 0x02
        then (0xFF : Nat) else 0x00) &&& 1) = _
    rw [hs1]; exact lane_master _ 1 0x02 (by norm_num)
  have l15 : unpack8_ssse3_step in_buf byte 15 = in_buf (byte + 1) % 2 := by
    show ((if (in_buf byte + 256 * in_buf (byte + 1)) / 256 % 256 &&& 0x01 = 0x01
        then (0xFF : Nat) else 0x00) &&& 1) = _
    rw [hs1]
    have hl := lane_master (in_buf (byte + 1)) 0 0x01 (by norm_num)
    simp only [Nat.div_one] at hl
    exact hl
  rw [show List.range 16 = [0, 1, 2, 3, 4, 5, 6, 7, 8, 9, 10, 11, 12, 13, 14, 15]
    from rfl]
  simp only [List.map_cons, List.map_nil]
  rw [l0, l1, l2, l3, l4, l5, l6, l7, l8, l9, l10, l11, l12, l13, l14, l15,
    unpack_byte_div_form, unpack_byte_div_form]
  rfl

theorem unpack8_ssse3_vec_spec (in_buf : Nat → Nat) (hin : ∀ j, in_buf j < 256)
    (fast : Nat) :
    ∀ fuel byte, fast - byte ≤ fuel → byte % 2 = fast % 2 →
      unpack8_ssse3_vec in_buf fast byte =
        (List.range' byte (fast - byte)).flatMap
          (fun byte => unpack_byte (in_buf byte)) := by
  intro fuel
  induction fuel with
  | zero =>
      intro byte hle _
      rw [unpack8_ssse3_vec, if_neg (by omega), show fast - byte = 0 by omega]
      rfl
  | succ n ih =>
      intro byte hle hpar
      rw [unpack8_ssse3_vec]
      by_cases hlt : byte < fast
      · rw [if_pos hlt]
        have h2 : 2 ≤ fast - byte := by omega
        rw [show fast - byte = ((fast - (byte + 2)) + 1) + 1 by omega,
          List.range'_succ, List.range'_succ]
        simp only [List.flatMap_cons]
        rw [unpack8_ssse3_step_spec in_buf byte (hin byte) (hin (byte + 1)),
          show byte + 1 + 1 = byte + 2 by omega,
          ih (byte + 2) (by omega) (by omega), List.append_assoc]
      · rw [if_neg hlt, show fast - byte = 0 by omega]
        rfl

/-- C5: for `num_bytes` in `unsigned int` range and byte-valued input, the
SSSE3 bit-unpack variant writes exactly the same `8 * num_bytes` bytes as
the generic reference implementation. -/
theorem volk_8u_unpack8_8u_u_ssse3_eq_generic (in_buf : Nat → Nat)
    (num_bytes : Nat) (h : num_bytes < 4294967296) (hin : ∀ j, in_buf j < 256) :
    volk_8u_unpack8_8u_u_ssse3 in_buf num_bytes =
      volk_8u_unpack8_8u_generic in_buf num_bytes := by
  unfold volk_8u_unpack8_8u_u_ssse3 volk_8u_unpack8_8u_generic
  rw [and_mask_even num_bytes h,
    unpack8_ssse3_vec_spec in_buf hin (2 * (num_bytes / 2)) (2 * (num_bytes / 2)) 0
      (by omega) (by omega),
    Nat.sub_zero, ← List.flatMap_append,
    show List.range' (2 * (num_bytes / 2)) (num_bytes - 2 * (num_bytes / 2)) =
      List.range' (0 + 2 * (num_bytes / 2)) (num_bytes - 2 * (num_bytes / 2)) by
        norm_num,
    List.range'_append_1,
    show num_bytes - 2 * (num_bytes / 2) + 2 * (num_bytes / 2) = num_bytes by omega,
    ← List.range_eq_range']

/-- Witness for C5 at a concrete byte buffer and an odd length. -/
theorem volk_8u_unpack8_8u_u_ssse3_eq_generic_witness :
    (3 < 4294967296 ∧ ∀ j : Nat, (j * 37 + 5) % 256 < 256) ∧
      volk_8u_unpack8_8u_u_ssse3 (fun j => (j * 37 + 5) % 256) 3 =
        volk_8u_unpack8_8u_generic (fun j => (j * 37 + 5) % 256) 3 :=
  ⟨⟨by norm_num, fun _ => Nat.mod_lt _ (by norm_num)⟩,
    volk_8u_unpack8_8u_u_ssse3_eq_generic (fun j => (j * 37 + 5) % 256) 3
      (by norm_num) (fun _ => Nat.mod_lt _ (by norm_num))⟩

/-! ## volk_8u_x2_exor_8u (part_003) -/

/-- `volk_8u_x2_exor_8u_generic`: byte `i` of the output is
`inputVector0[i] ^ inputVector1[i]`. -/
def volk_8u_x2_exor_8u_generic (in0 in1 : Nat → Nat) (num_bytes : Nat) : List Nat :=
  (List.range num_bytes).map (fun i => in0 i ^^^ in1 i)

/-- `_mm256_loadu_ps` of byte data at byte offset `off`, viewed as byte
lanes (loads and stores of byte data through `__m256` are bit copies). -/
def mm256_loadu_bytes (mem : Nat → Nat) (off : Nat) : Nat → Nat :=
  fun j => mem (off + j)

/-- `_mm256_load_ps` (aligned form) of byte data at byte offset `off`. -/
def mm256_load_bytes (mem : Nat → Nat) (off : Nat) : Nat → Nat :=
  fun j => mem (off + j)

/-- `_mm256_xor_ps`: bitwise xor, byte-lane view. -/
def mm256_xor_bytes (a b : Nat → Nat) : Nat → Nat := fun j => a j ^^^ b j

/-- The vector loop `for(i = 0; i < num_32_bytes; i += 32)` of
`volk_8u_x2_exor_8u_u_avx`: the pointers advance by 32 bytes per iteration,
so with loop counter `i` the pointers sit at byte offset `i`; 32 output
bytes are stored per iteration.  Note the source compares `i` against
`num_32_bytes = num_bytes / 32` while stepping `i` by 32. -/
def exor_u_avx_vec (in0 in1 : Nat → Nat) (num_32_bytes i : Nat) : List Nat :=
  if i < num_32_bytes then
    (List.range 32).map
        (mm256_xor_bytes (mm256_loadu_bytes in0 i) (mm256_loadu_bytes in1 i)) ++
      exor_u_avx_vec in0 in1 num_32_bytes (i + 32)
  else []
termination_by num_32_bytes - i
decreasing_by omega

/-- Final value of the loop counter `i` after the vector loop. -/
def exor_avx_end (num_32_bytes i : Nat) : Nat :=
  if i < num_32_bytes then exor_avx_end num_32_bytes (i + 32) else i
termination_by num_32_bytes - i
decreasing_by omega

/-- `volk_8u_x2_exor_8u_u_avx`: vector loop, then the scalar tail
`for(; i < num_bytes; ++i)` continuing from the final loop counter. -/
def volk_8u_x2_exor_8u_u_avx (in0 in1 : Nat → Nat) (num_bytes : Nat) : List Nat :=
  exor_u_avx_vec in0 in1 (num_bytes / 32) 0 ++
    (List.range' (exor_avx_end (num_bytes / 32) 0)
        (num_bytes - exor_avx_end (num_bytes / 32) 0)).map
      (fun i => in0 i ^^^ in1 i)

/-- The vector loop of `volk_8u_x2_exor_8u_a_avx`, identical to the
unaligned one except for the aligned load/store intrinsics. -/
def exor_a_avx_vec (in0 in1 : Nat → Nat) (num_32_bytes i : Nat) : List Nat :=
  if i < num_32_bytes then
    (List.range 32).map
        (mm256_xor_bytes (mm256_load_bytes in0 i) (mm256_load_bytes in1 i)) ++
      exor_a_avx_vec in0 in1 num_32_bytes (i + 32)
  else []
termination_by num_32_bytes - i
decreasing_by omega

/-- `volk_8u_x2_exor_8u_a_avx`: the aligned entry point. -/
def volk_8u_x2_exor_8u_a_avx (in0 in1 : Nat → Nat) (num_bytes : Nat) : List Nat :=
  exor_a_avx_vec in0 in1 (num_bytes / 32) 0 ++
    (List.range' (exor_avx_end (num_bytes / 32) 0)
        (num_bytes - exor_avx_end (num_bytes / 32) 0)).map
      (fun i => in0 i ^^^ in1 i)

theorem exor_avx_end_of_ge (m i : Nat) (h : m ≤ i) : exor_avx_end m i = i := by
  rw [exor_avx_end, if_neg (by omega)]

theorem exor_avx_end_ge (m : Nat) :
    ∀ fuel i, m - i ≤ fuel → i ≤ exor_avx_end m i := by
  intro fuel
  induction fuel with
  | zero =>
      intro i hle
      rw [exor_avx_end, if_neg (by omega)]
  | succ n ih =>
      intro i hle
      rw [exor_avx_end]
      by_cases h : i < m
      · rw [if_pos h]
        have := ih (i + 32) (by omega)
        omega
      · rw [if_neg h]

theorem exor_avx_end_le (m : Nat) :
    ∀ fuel i, m - i ≤ fuel → exor_avx_end m i ≤ max i (m + 31) := by
  intro fuel
  induction fuel with
  | zero =>
      intro i hle
      rw [exor_avx_end, if_neg (by omega)]
      omega
  | succ n ih =>
      intro i hle
      rw [exor_avx_end]
      by_cases h : i < m
      · rw [if_pos h]
        have := ih (i + 32) (by omega)
        omega
      · rw [if_neg h]
        omega

theorem exor_u_avx_vec_spec (in0 in1 : Nat → Nat) (m : Nat) :
    ∀ fuel i, m - i ≤ fuel →
      exor_u_avx_vec in0 in1 m i =
        (List.range' i (exor_avx_end m i - i)).map (fun j => in0 j ^^^ in1 j) := by
  intro fuel
  induction fuel with
  | zero =>
      intro i hle
      rw [exor_u_avx_vec, if_neg (by omega), exor_avx_end, if_neg (by omega),
        Nat.sub_self]
      rfl
  | succ n ih =>
      intro i hle
      rw [exor_u_avx_vec]
      by_cases h : i < m
      · rw [if_pos h, exor_avx_end, if_pos h, ih (i + 32) (by omega)]
        have hge : i + 32 ≤ exor_avx_end m (i + 32) :=
          exor_avx_end_ge m (m - (i + 32) + 1) (i + 32) (by omega)
        have hhead : (List.range 32).map
            (mm256_xor_bytes (mm256_loadu_bytes in0 i) (mm256_loadu_bytes in1 i)) =
            (List.range' i 32).map (fun j => in0 j ^^^ in1 j) := by
          rw [List.range'_eq_map_range, List.map_map]
          rfl
        rw [show exor_avx_end m (i + 32) - i =
              exor_avx_end m (i + 32) - (i + 32) + 32 by omega,
          ← List.range'_append_1, List.map_append, hhead]
      · rw [if_neg h, exor_avx_end, if_neg h, Nat.sub_self]
        rfl

/-- C4: the unaligned AVX exor variant computes exactly the generic result;
the vector loop plus its scalar tail cover each byte position exactly once
(the loop bound `i < num_bytes / 32` with step 32 only makes the loop exit
early into the scalar tail, never skip or repeat a byte). -/
theorem volk_8u_x2_exor_8u_u_avx_eq_generic (in0 in1 : Nat → Nat) (num_bytes : Nat) :
    volk_8u_x2_exor_8u_u_avx in0 in1 num_bytes =
      volk_8u_x2_exor_8u_generic in0 in1 num_bytes := by
  unfold volk_8u_x2_exor_8u_u_avx volk_8u_x2_exor_8u_generic
  rw [exor_u_avx_vec_spec in0 in1 (num_bytes / 32) (num_bytes / 32) 0 (by omega),
    Nat.sub_zero]
  have hle : exor_avx_end (num_bytes / 32) 0 ≤ num_bytes := by
    by_cases h0 : num_bytes / 32 = 0
    · rw [h0, exor_avx_end_of_ge 0 0 (by omega)]
      omega
    · have h1 := exor_avx_end_le (num_bytes / 32) (num_bytes / 32) 0 (by omega)
      omega
  rw [← List.map_append,
    show List.range' (exor_avx_end (num_bytes / 32) 0)
          (num_bytes - exor_avx_end (num_bytes / 32) 0) =
        List.range' (0 + exor_avx_end (num_bytes / 32) 0)
          (num_bytes - exor_avx_end (num_bytes / 32) 0) by norm_num,
    List.range'_append_1,
    show num_bytes - exor_avx_end (num_bytes / 32) 0 +
          exor_avx_end (num_bytes / 32) 0 = num_bytes by omega,
    ← List.range_eq_range']

theorem exor_a_avx_vec_eq_u (in0 in1 : Nat → Nat) (m : Nat) :
    ∀ fuel i, m - i ≤ fuel →
      exor_a_avx_vec in0 in1 m i = exor_u_avx_vec in0 in1 m i := by
  intro fuel
  induction fuel with
  | zero =>
      intro i hle
      rw [exor_a_avx_vec, exor_u_avx_vec, if_neg (by omega), if_neg (by omega)]
  | succ n ih =>
      intro i hle
      rw [exor_a_avx_vec, exor_u_avx_vec]
      by_cases h : i < m
      · rw [if_pos h, if_pos h, ih (i + 32) (by omega)]
        rfl
      · rw [if_neg h, if_neg h]

/-- C7: the aligned and unaligned AVX exor entry points compute identical
output buffers (the only difference, aligned versus unaligned load/store
instructions, has no effect on the values moved). -/
theorem volk_8u_x2_exor_8u_a_avx_eq_u_avx (in0 in1 : Nat → Nat) (num_bytes : Nat) :
    volk_8u_x2_exor_8u_a_avx in0 in1 num_bytes =
      volk_8u_x2_exor_8u_u_avx in0 in1 num_bytes := by
  unfold volk_8u_x2_exor_8u_a_avx volk_8u_x2_exor_8u_u_avx
  rw [exor_a_avx_vec_eq_u in0 in1 (num_bytes / 32) (num_bytes / 32) 0 (by omega)]

/-! ## Kernel registry: per-header implementation variants

One `Variant` per protokernel function in a kernel header, in declaration
order, tagged with the instruction-set extensions of its `#ifdef LV_HAVE_…`
guard (`[]` for `LV_HAVE_GENERIC`, i.e. no required extension). -/

inductive Extension where
  | AVX | AVX2 | FMA | NEON | RVV | RVVSEG | SSE4_1 | SSSE3
deriving DecidableEq

structure Variant where
  impl_name : String
  required_extensions : List Extension
deriving DecidableEq

structure KernelDescriptor where
  operation_name : String
  variants : List Variant
deriving DecidableEq

/-- A variant with no required instruction-set extension. -/
def extensionFree (v : Variant) : Bool := v.required_extensions.isEmpty

/-- Variants of `volk_32fc_32f_add_32fc` (part_000). -/
def volk_32fc_32f_add_32fc_desc : KernelDescriptor :=
  ⟨"volk_32fc_32f_add_32fc",
    [⟨"generic", []⟩, ⟨"u_avx", [.AVX]⟩, ⟨"a_avx", [.AVX]⟩,
     ⟨"neon", [.NEON]⟩, ⟨"rvv", [.RVV]⟩]⟩

/-- Variants of `volk_32fc_s32f_atan2_32f` (part_001).  Both `generic` and
`polynomial` are guarded by `LV_HAVE_GENERIC` alone. -/
def volk_32fc_s32f_atan2_32f_desc : KernelDescriptor :=
  ⟨"volk_32fc_s32f_atan2_32f",
    [⟨"generic", []⟩, ⟨"polynomial", []⟩,
     ⟨"a_avx2_fma", [.AVX2, .FMA]⟩, ⟨"a_avx2", [.AVX2]⟩,
     ⟨"u_avx2_fma", [.AVX2, .FMA]⟩, ⟨"u_avx2", [.AVX2]⟩,
     ⟨"rvv", [.RVV]⟩, ⟨"rvvseg", [.RVVSEG]⟩]⟩

/-- Variants of `volk_32f_asin_32f` (kernels/volk/volk_32f_asin_32f.h). -/
def volk_32f_asin_32f_desc : KernelDescriptor :=
  ⟨"volk_32f_asin_32f",
    [⟨"a_avx2_fma", [.AVX2, .FMA]⟩, ⟨"a_avx", [.AVX]⟩, ⟨"a_sse4_1", [.SSE4_1]⟩,
     ⟨"u_avx2_fma", [.AVX2, .FMA]⟩, ⟨"u_avx", [.AVX]⟩, ⟨"u_sse4_1", [.SSE4_1]⟩,
     ⟨"generic", []⟩, ⟨"rvv", [.RVV]⟩]⟩

/-- Variants of `volk_8u_pack8_8u` (part_002). -/
def volk_8u_pack8_8u_desc : KernelDescriptor :=
  ⟨"volk_8u_pack8_8u",
    [⟨"generic", []⟩, ⟨"u_ssse3", [.SSSE3]⟩, ⟨"a_ssse3", [.SSSE3]⟩]⟩

/-- Variants of `volk_8u_pack8puppet_8u` (kernels/volk/volk_8u_pack8puppet_8u.h). -/
def volk_8u_pack8puppet_8u_desc : KernelDescriptor :=
  ⟨"volk_8u_pack8puppet_8u",
    [⟨"generic", []⟩, ⟨"u_ssse3", [.SSSE3]⟩, ⟨"a_ssse3", [.SSSE3]⟩]⟩

/-- Variants of `volk_8u_unpack8_8u` (part_003). -/
def volk_8u_unpack8_8u_desc : KernelDescriptor :=
  ⟨"volk_8u_unpack8_8u", [⟨"generic", []⟩, ⟨"u_ssse3", [.SSSE3]⟩]⟩

/-- Variants of `volk_8u_unpack8puppet_8u`
(kernels/volk/volk_8u_unpack8puppet_8u.h). -/
def volk_8u_unpack8puppet_8u_desc : KernelDescriptor :=
  ⟨"volk_8u_unpack8puppet_8u", [⟨"generic", []⟩, ⟨"u_ssse3", [.SSSE3]⟩]⟩

/-- Variants of `volk_8u_x2_exor_8u` (part_003). -/
def volk_8u_x2_exor_8u_desc : KernelDescriptor :=
  ⟨"volk_8u_x2_exor_8u",
    [⟨"generic", []⟩, ⟨"u_avx", [.AVX]⟩, ⟨"a_avx", [.AVX]⟩]⟩

/-- All kernel headers present in the repository. -/
def kernelRegistry : List KernelDescriptor :=
  [volk_32fc_32f_add_32fc_desc, volk_32fc_s32f_atan2_32f_desc,
   volk_32f_asin_32f_desc, volk_8u_pack8_8u_desc, volk_8u_pack8puppet_8u_desc,
   volk_8u_unpack8_8u_desc, volk_8u_unpack8puppet_8u_desc,
   volk_8u_x2_exor_8u_desc]

/-- Counterexample to C1 as stated: the atan2 kernel header declares two
extension-free implementations (`generic` and `polynomial`), so "exactly
one per Kernel Descriptor" fails on this registry. -/
theorem atan2_two_extension_free_variants :
    volk_32fc_s32f_atan2_32f_desc ∈ kernelRegistry ∧
      (volk_32fc_s32f_atan2_32f_desc.variants.filter extensionFree).length = 2 ∧
      ¬ ∀ D ∈ kernelRegistry, (D.variants.filter extensionFree).length = 1 := by
  decide

/-- C1 (amended): every kernel header in the repository declares at least
one extension-free (generic) implementation among its variants. -/
theorem kernelRegistry_at_least_one_extension_free (D : KernelDescriptor)
    (hD : D ∈ kernelRegistry) :
    1 ≤ (D.variants.filter extensionFree).length :=
  (by decide : ∀ D ∈ kernelRegistry,
    1 ≤ (D.variants.filter extensionFree).length) D hD

/-- Witness for the amended C1 at a concrete descriptor. -/
theorem kernelRegistry_at_least_one_extension_free_witness :
    volk_8u_pack8_8u_desc ∈ kernelRegistry ∧
      1 ≤ (volk_8u_pack8_8u_desc.variants.filter extensionFree).length :=
  ⟨by decide,
    kernelRegistry_at_least_one_extension_free volk_8u_pack8_8u_desc (by decide)⟩

/-! ## Selector -/

/-- Modelled from the spec: the Selector (`rank`) is part of the dispatch
core, which is not among the sources under `src/`; this model follows
spec §4.2 (filter by extension membership, filter by alignment hint, order
by the DAG's topological ranking with declaration order breaking ties). -/
inductive AlignmentRequirement where
  | None
  | RequiresAligned
deriving DecidableEq

/-- Modelled from the spec: a Variant of spec §3 with an optional required
Extension and an alignment requirement. -/
structure SpecVariant where
  impl_name : String
  required_extension : Option Extension
  alignment : AlignmentRequirement
deriving DecidableEq

/-- Modelled from the spec: a Kernel Descriptor of spec §3. -/
structure SpecKernelDescriptor where
  operation_name : String
  variants : List SpecVariant
deriving DecidableEq

/-- Modelled from the spec: a Capability Set of spec §3 — the set of
supported extensions plus the platform alignment boundary. -/
structure CapabilitySet where
  extensions : List Extension
  alignment_boundary : Nat
deriving DecidableEq

/-- Modelled from the spec: filter step 1 of `rank` — a variant is legal if
its required extension is absent or a member of the capability set. -/
def variantLegal (caps : CapabilitySet) (v : SpecVariant) : Bool :=
  match v.required_extension with
  | Option.none => true
  | Option.some e => caps.extensions.contains e

/-- Modelled from the spec: filter step 2 of `rank` — with
`alignment_hint = RequiresAligned` all variants are eligible; with no
alignment guarantee, aligned-only variants are excluded. -/
def variantAlignEligible (hint : AlignmentRequirement) (v : SpecVariant) : Bool :=
  if hint = AlignmentRequirement.RequiresAligned then true
  else if v.alignment = AlignmentRequirement.RequiresAligned then false
  else true

/-- Stable insertion by topological rank (smaller rank preferred; insertion
after equal ranks keeps declaration order for incomparable extensions). -/
def insertRanked (pr : SpecVariant → Nat) (v : SpecVariant) :
    List SpecVariant → List SpecVariant
  | [] => [v]
  | w :: ws => if pr v < pr w then v :: w :: ws else w :: insertRanked pr v ws

/-- Stable insertion sort by topological rank. -/
def sortRanked (pr : SpecVariant → Nat) : List SpecVariant → List SpecVariant
  | [] => []
  | v :: vs => insertRanked pr v (sortRanked pr vs)

/-- Modelled from the spec: `rank(descriptor, caps, alignment_hint)` of
spec §4.2, with `pr` the topological ranking of the extension preference
DAG. -/
def rank (pr : SpecVariant → Nat) (D : SpecKernelDescriptor)
    (caps : CapabilitySet) (hint : AlignmentRequirement) : List SpecVariant :=
  sortRanked pr
    ((D.variants.filter (variantLegal caps)).filter (variantAlignEligible hint))

theorem insertRanked_ne_nil (pr : SpecVariant → Nat) (v : SpecVariant)
    (l : List SpecVariant) : insertRanked pr v l ≠ [] := by
  cases l with
  | nil => simp [insertRanked]
  | cons w ws =>
      unfold insertRanked
      by_cases h : pr v < pr w <;> simp [h]

theorem sortRanked_ne_nil (pr : SpecVariant → Nat) (l : List SpecVariant)
    (h : l ≠ []) : sortRanked pr l ≠ [] := by
  cases l with
  | nil => exact absurd rfl h
  | cons v vs => exact insertRanked_ne_nil pr v (sortRanked pr vs)

theorem mem_insertRanked (pr : SpecVariant → Nat) (v x : SpecVariant)
    (l : List SpecVariant) (h : x ∈ insertRanked pr v l) : x = v ∨ x ∈ l := by
  induction l with
  | nil => simp [insertRanked] at h; exact Or.inl h
  | cons w ws ih =>
      unfold insertRanked at h
      by_cases hc : pr v < pr w
      · rw [if_pos hc, List.mem_cons, List.mem_cons] at h
        rcases h with h | h | h
        · exact Or.inl h
        · exact Or.inr (by rw [h]; exact List.mem_cons_self w ws)
        · exact Or.inr (List.mem_cons_of_mem w h)
      · rw [if_neg hc, List.mem_cons] at h
        rcases h with h | h
        · exact Or.inr (by rw [h]; exact List.mem_cons_self w ws)
        · rcases ih h with h' | h'
          · exact Or.inl h'
          · exact Or.inr (List.mem_cons_of_mem w h')

theorem mem_sortRanked (pr : SpecVariant → Nat) (x : SpecVariant)
    (l : List SpecVariant) (h : x ∈ sortRanked pr l) : x ∈ l := by
  induction l with
  | nil => simp [sortRanked] at h
  | cons v vs ih =>
      unfold sortRanked at h
      rcases mem_insertRanked pr v x (sortRanked pr vs) h with h' | h'
      · rw [h']; exact List.mem_cons_self v vs
      · exact List.mem_cons_of_mem v (ih h')

theorem head?_mem {α : Type} {l : List α} {v : α} (h : l.head? = some v) :
    v ∈ l := by
  cases l with
  | nil => simp at h
  | cons a t =>
      simp [List.head?] at h
      rw [← h]
      exact List.mem_cons_self a t

/-- C6: given the registry invariant (a universal generic fallback — a
variant with no required extension and no alignment requirement — exists in
the descriptor), `rank` returns a non-empty list, and its head's required
extension, if present, is a member of the capability set: the Selector
never returns "no legal implementation". -/
theorem rank_nonempty_head_legal (pr : SpecVariant → Nat)
    (D : SpecKernelDescriptor) (caps : CapabilitySet)
    (hint : AlignmentRequirement)
    (hgen : ∃ v ∈ D.variants,
      v.required_extension = Option.none ∧
        v.alignment = AlignmentRequirement.None) :
    rank pr D caps hint ≠ [] ∧
      ∀ v e, (rank pr D caps hint).head? = some v →
        v.required_extension = Option.some e →
          caps.extensions.contains e = true := by
  obtain ⟨g, hgmem, hgext, hgal⟩ := hgen
  have hgleg : variantLegal caps g = true := by
    unfold variantLegal
    rw [hgext]
  have hgal' : variantAlignEligible hint g = true := by
    unfold variantAlignEligible
    rw [hgal]
    rcases hint <;> rfl
  have hg2 : g ∈ (D.variants.filter (variantLegal caps)).filter
      (variantAlignEligible hint) := by
    rw [List.mem_filter]
    exact ⟨List.mem_filter.mpr ⟨hgmem, hgleg⟩, hgal'⟩
  have hne : (D.variants.filter (variantLegal caps)).filter
      (variantAlignEligible hint) ≠ [] := by
    intro hnil
    rw [hnil] at hg2
    exact absurd hg2 (List.not_mem_nil g)
  constructor
  · exact sortRanked_ne_nil pr _ hne
  · intro v e hv hev
    have hvmem := head?_mem hv
    have hvf := mem_sortRanked pr v _ hvmem
    rw [List.mem_filter] at hvf
    have hvl := List.mem_filter.mp hvf.1
    have hleg : variantLegal caps v = true := hvl.2
    unfold variantLegal at hleg
    rw [hev] at hleg
    exact hleg

/-- Witness for C6: a two-variant descriptor, capability set `{AVX}`, no
alignment guarantee. -/
theorem rank_nonempty_head_legal_witness :
    (∃ v ∈ (SpecKernelDescriptor.mk "volk_8u_x2_exor_8u"
        [SpecVariant.mk "generic" Option.none AlignmentRequirement.None,
         SpecVariant.mk "a_avx" (Option.some Extension.AVX)
           AlignmentRequirement.RequiresAligned]).variants,
      v.required_extension = Option.none ∧
        v.alignment = AlignmentRequirement.None) ∧
      (rank (fun _ => 0)
          (SpecKernelDescriptor.mk "volk_8u_x2_exor_8u"
            [SpecVariant.mk "generic" Option.none AlignmentRequirement.None,
             SpecVariant.mk "a_avx" (Option.some Extension.AVX)
               AlignmentRequirement.RequiresAligned])
          (CapabilitySet.mk [Extension.AVX] 32) AlignmentRequirement.None ≠ [] ∧
        ∀ v e, (rank (fun _ => 0)
            (SpecKernelDescriptor.mk "volk_8u_x2_exor_8u"
              [SpecVariant.mk "generic" Option.none AlignmentRequirement.None,
               SpecVariant.mk "a_avx" (Option.some Extension.AVX)
                 AlignmentRequirement.RequiresAligned])
            (CapabilitySet.mk [Extension.AVX] 32)
            AlignmentRequirement.None).head? = some v →
          v.required_extension = Option.some e →
            (CapabilitySet.mk [Extension.AVX] 32).extensions.contains e = true) :=
  ⟨⟨SpecVariant.mk "generic" Option.none AlignmentRequirement.None,
      by decide, rfl, rfl⟩,
    rank_nonempty_head_legal (fun _ => 0)
      (SpecKernelDescriptor.mk "volk_8u_x2_exor_8u"
        [SpecVariant.mk "generic" Option.none AlignmentRequirement.None,
         SpecVariant.mk "a_avx" (Option.some Extension.AVX)
           AlignmentRequirement.RequiresAligned])
      (CapabilitySet.mk [Extension.AVX] 32) AlignmentRequirement.None
      ⟨SpecVariant.mk "generic" Option.none AlignmentRequirement.None,
        by decide, rfl, rfl⟩⟩

/-! ## Benchmark harness buffer accounting (profile/volk_profile.cpp) -/

/-- `impl_name.find("a_") != std::string::npos` from
`BM_volk_32fc_x2_multiply_32fc` / `BM_volk_32f_s32f_multiply_32f`. -/
def contains_a_underscore : List Char → Bool
  | c1 :: c2 :: rest => (c1 = 'a' && c2 = '_') || contains_a_underscore (c2 :: rest)
  | _ => false

/-- Number of elements allocated per buffer in the benchmark fixtures:
`ref_length = vector_length`, incremented by one only when the
implementation name contains `"a_"` (the `is_aligned` branch). -/
def bm_ref_length (impl_name : List Char) (vector_length : Nat) : Nat :=
  if contains_a_underscore impl_name then vector_length + 1 else vector_length

/-- Element offset applied to the data pointers before the kernel call:
the pointers are advanced by one element only when the implementation name
does not contain `"a_"` (the `not is_aligned` branch). -/
def bm_ptr_offset (impl_name : List Char) : Nat :=
  if contains_a_underscore impl_name then 0 else 1

/-- C8 fails: for the unaligned benchmark of `"generic"` at the default
`vector_length = 131071`, the kernel's last element access
(`bm_ptr_offset + (vector_length - 1) = 131071`) is not below the
allocation size `bm_ref_length = 131071`: the harness reads and writes one
element past the end of each buffer. -/
theorem bm_unaligned_access_out_of_bounds :
    contains_a_underscore ('g' :: 'e' :: 'n' :: 'e' :: 'r' :: 'i' :: 'c' :: []) =
        false ∧
      131070 < 131071 ∧
      ¬ (bm_ptr_offset ('g' :: 'e' :: 'n' :: 'e' :: 'r' :: 'i' :: 'c' :: []) +
            131070 <
          bm_ref_length ('g' :: 'e' :: 'n' :: 'e' :: 'r' :: 'i' :: 'c' :: [])
            131071) := by
  decide

end Volk
